import Mathlib

/-!
# Verification of the run-orchestrator of `proto_front`

Shallow embedding of the run orchestrator found in `os-api/src/index.js`
(stage registry, run store records, process runner, stage executors,
pipeline engine, SSE broadcaster and HTTP endpoint handlers) and of the
worker runner module (the TypeScript file exporting `executeRun`,
`executeIngestStage`, `runCommand`, ...).

Modelling conventions:
* JavaScript objects become Lean structures; only the fields that some
  verified property inspects are modelled (ISO timestamp strings such as
  `updatedAt`, `startedAt`, `endedAt` and the opaque `inputs` payload are
  elided; `createdAt` is kept as a logical `Nat` clock because the
  artifact-listing endpoint copies it).
* Filesystem probes (`fs.existsSync`) and child-process exit codes are
  passed in as explicit environment records, since they are inputs of the
  functions under verification, not part of them.
* The in-place mutation of the run record (`Object.assign`, array pushes)
  becomes explicit state passing; `updateStage` patches the *first* stage
  whose `id` matches, exactly as `getStage` (`Array.prototype.find`) does.
* Child-process stdout/stderr chunks are modelled as `List Char` so the
  line-buffer arithmetic of `runCommand` is explicit.
-/

/-- Log levels of a `LogEntry` (`level` field). -/
inductive Level where
  | info
  | warn
  | error
  | debug
deriving DecidableEq, Repr

/-- One entry of `run.logs`: `{ time, msg, stage, level }` with the
`time` ISO string elided. `stage` holds the *label* of the emitting
stage (resolved by `appendLog` via `getStage`). -/
structure LogEntry where
  msg : String
  stage : String
  level : Level
deriving DecidableEq, Repr

/-- Status of one pipeline stage (`stage.status` strings of the source). -/
inductive StageStatus where
  | pending
  | running
  | skipped
  | blocked
  | complete
deriving DecidableEq, Repr

/-- One element of `run.stages`: `{ id, label, status, message?, ... }`
(`startedAt`/`endedAt` elided). -/
structure StageState where
  id : String
  label : String
  status : StageStatus
  message : Option String := none
deriving DecidableEq, Repr

/-- Run statuses used by `setRunStatus` and the pipeline. -/
inductive RunStatus where
  | ready
  | running
  | needs_review
  | blocked
  | complete
  | canceled
deriving DecidableEq, Repr

/-- The `run.review` object: `{ required, status, notes?, updatedAt }`
(`updatedAt` elided; `status` is one of the strings "pending",
"approved", "rejected"). -/
structure Review where
  required : Bool
  status : String
  notes : Option String := none
deriving DecidableEq, Repr

/-- One element of `run.artifacts`. `createdAt` is the logical clock
value; `path` is `none` when the source object has no `path` key. -/
structure Artifact where
  id : String
  name : String
  type : String
  stage : String
  createdAt : Nat
  path : Option String := none
deriving DecidableEq, Repr

/-- The RunRecord (`run` objects stored by `RunStore`). `clientName`,
`brandId`, `inputs` and the timestamp strings are elided; `createdAt`
is a logical clock. -/
structure Run where
  runId : String
  clientId : String
  mode : String
  status : RunStatus
  createdAt : Nat
  stages : List StageState
  logs : List LogEntry
  review : Review
  artifacts : List Artifact
deriving DecidableEq, Repr

/-- An entry of the client directory (`hud.json`); only the fields the
orchestrator reads are kept. -/
structure Client where
  id : String
  name : String
  hitlReviewNeeded : Bool := false
deriving DecidableEq, Repr

/-- `stageTemplates` of `index.js`: the Stage Registry's ordered list of
`(id, label)` pairs. -/
def stageTemplates : List (String × String) :=
  [("ingest", "Ingest and Index"),
   ("generate", "Generate"),
   ("drift", "Drift Check"),
   ("hitl", "HITL Gate"),
   ("export", "Export Package")]

/-- `runModes` of `index.js`: mode string to the ids of the stages that
actually execute in that mode (`none` for an unknown mode). -/
def runModes : String → Option (List String)
  | "full" => some ["ingest", "generate", "drift", "hitl", "export"]
  | "ingest" => some ["ingest"]
  | "images" => some ["generate"]
  | "video" => some ["generate"]
  | "drift" => some ["drift"]
  | "export" => some ["export"]
  | _ => none

/-- `createStages()` of `index.js`: maps over **all** of
`stageTemplates` (it takes no mode argument) marking each stage
`pending`. -/
def createStages : List StageState :=
  stageTemplates.map fun t => { id := t.1, label := t.2, status := .pending }

/-- `buildRunRecord` of `index.js`. `runId` (a random UUID in the
source) and the creation clock are parameters. -/
def buildRunRecord (runId : String) (client : Client) (mode : String)
    (createdAt : Nat) : Run :=
  { runId := runId
    clientId := client.id
    mode := mode
    status := .ready
    createdAt := createdAt
    stages := createStages
    logs := []
    review := { required := false, status := "pending" }
    artifacts := [] }

/-- `list.slice(-n)`: the last `n` elements. Used by `appendLog`
(`run.logs = [...].slice(-400)`). -/
def lastN (n : Nat) (l : List α) : List α :=
  l.drop (l.length - n)

/-- `getStage(run, stageId)?.label ?? stageId` as used by `appendLog`. -/
def stageLabelOf (run : Run) (sid : String) : String :=
  match run.stages.find? (fun s => s.id = sid) with
  | some s => s.label
  | none => sid

/-- The log entry built by `appendLog`. -/
def mkLogEntry (run : Run) (sid msg : String) (level : Level) : LogEntry :=
  { msg := msg, stage := stageLabelOf run sid, level := level }

/-- `appendLog(run, stageId, message, level)` of `index.js`: append the
entry, keep the last 400 entries (the store upsert and SSE broadcast
side effects are modelled separately). -/
def appendLogRun (run : Run) (sid msg : String) (level : Level) : Run :=
  { run with logs := lastN 400 (run.logs ++ [mkLogEntry run sid msg level]) }

/-- `Object.assign` on the first stage whose `id` matches, as
`updateStage` does via `getStage` (`Array.prototype.find`). A missing
id leaves the list unchanged. -/
def updateFirst (sid : String) (f : StageState → StageState) :
    List StageState → List StageState
  | [] => []
  | s :: rest =>
    if s.id = sid then f s :: rest else s :: updateFirst sid f rest

/-- `updateStage(run, stageId, patch)` of `index.js` (store upsert and
broadcast modelled separately). -/
def updateStage (run : Run) (sid : String) (f : StageState → StageState) : Run :=
  { run with stages := updateFirst sid f run.stages }

/-- `setRunStatus(run, status)` of `index.js` (the `startedAt`/`endedAt`
bookkeeping applies to elided fields; store upsert and broadcast
modelled separately). -/
def setRunStatus (run : Run) (s : RunStatus) : Run :=
  { run with status := s }

/-- The signature of a stage that never changes: its `id` and `label`.
Pipeline patches only touch `status`/`message`. -/
def stageSig (s : StageState) : String × String :=
  (s.id, s.label)

/-- The executor result object `{ ok, skipped?, canceled?, message?,
reviewRequired? }` consumed by `runPipeline`. A missing key is the
default value. -/
structure ExecResult where
  ok : Bool
  skipped : Bool := false
  canceled : Bool := false
  reviewRequired : Bool := false
  message : Option String := none
deriving DecidableEq, Repr

/-- A stage executor as the pipeline sees it: `executeStage(run, stage)`
returns a result and (through in-place mutation of `run`) a possibly
updated run. Concrete executors appear below; the pipeline theorems are
stated for any executor, which also lets the concurrent mutations done
by the cancel endpoint while a stage is awaited be folded into it. -/
def Executor : Type :=
  Run → StageState → ExecResult × Run

/-- The stage patch `{ status: "running", startedAt }` (timestamp elided). -/
def patchRunning : StageState → StageState :=
  fun t => { t with status := .running }

/-- The stage patch `{ status: "skipped", endedAt }` used for stages not
selected by the run mode (no `message` key: the old message stays). -/
def patchSkipped : StageState → StageState :=
  fun t => { t with status := .skipped }

/-- The stage patch `{ status: "blocked", endedAt, message: "Canceled" }`. -/
def patchCanceledStage : StageState → StageState :=
  fun t => { t with status := .blocked, message := some "Canceled" }

/-- The stage patch `{ status: "blocked", endedAt, message }`. -/
def patchBlocked (m : String) : StageState → StageState :=
  fun t => { t with status := .blocked, message := some m }

/-- The stage patch `{ status: "skipped", endedAt, message: result?.message }`
(assigning a missing message overwrites with `undefined`, i.e. `none`). -/
def patchSkipResult (m : Option String) : StageState → StageState :=
  fun t => { t with status := .skipped, message := m }

/-- The stage patch `{ status: "complete", endedAt }`. -/
def patchComplete : StageState → StageState :=
  fun t => { t with status := .complete }

/-- The mark-running / log "<label> started." / invoke-executor prefix
of one selected iteration of `runPipeline`'s loop. -/
def execStep (exec : Executor) (s : StageState) (r : Run) : ExecResult × Run :=
  exec
    (appendLogRun (updateStage r s.id patchRunning)
      s.id (s.label ++ " started.") .info) s

/-- The body of `runPipeline`'s `for (const stage of run.stages)` loop.
Returns the final run, `true` iff the loop ran to completion (no early
`return`), and the ids of the stages whose executor was invoked, in
order. Mirrors `index.js`:
* a stage not in `stagesToRun` is marked `skipped` (no executor call);
* if the run is already `canceled` the loop returns immediately;
* otherwise `execStep` runs and its result is dispatched exactly as in
  the source (`canceled` / `!ok` / `skipped` / success). -/
def pipelineLoop (exec : Executor) (sel : List String) :
    Run → List StageState → Run × Bool × List String
  | r, [] => (r, true, [])
  | r, s :: rest =>
    if sel.contains s.id = false then
      pipelineLoop exec sel (updateStage r s.id patchSkipped) rest
    else if r.status = .canceled then
      (r, false, [])
    else if (execStep exec s r).1.canceled then
      (setRunStatus
        (updateStage (execStep exec s r).2 s.id patchCanceledStage)
        .canceled, false, [s.id])
    else if (execStep exec s r).1.ok = false then
      (setRunStatus
        (appendLogRun
          (updateStage (execStep exec s r).2 s.id
            (patchBlocked ((execStep exec s r).1.message.getD "Stage failed")))
          s.id ((execStep exec s r).1.message.getD "Stage failed") .error)
        .blocked, false, [s.id])
    else if (execStep exec s r).1.skipped then
      ((pipelineLoop exec sel
          (updateStage (execStep exec s r).2 s.id
            (patchSkipResult (execStep exec s r).1.message)) rest).1,
       (pipelineLoop exec sel
          (updateStage (execStep exec s r).2 s.id
            (patchSkipResult (execStep exec s r).1.message)) rest).2.1,
       s.id ::
       (pipelineLoop exec sel
          (updateStage (execStep exec s r).2 s.id
            (patchSkipResult (execStep exec s r).1.message)) rest).2.2)
    else
      ((pipelineLoop exec sel
          (appendLogRun (updateStage (execStep exec s r).2 s.id patchComplete)
            s.id (s.label ++ " complete.") .info) rest).1,
       (pipelineLoop exec sel
          (appendLogRun (updateStage (execStep exec s r).2 s.id patchComplete)
            s.id (s.label ++ " complete.") .info) rest).2.1,
       s.id ::
       (pipelineLoop exec sel
          (appendLogRun (updateStage (execStep exec s r).2 s.id patchComplete)
            s.id (s.label ++ " complete.") .info) rest).2.2)

/-- The tail of `runPipeline` after its loop: an early `return` keeps
the run as the loop left it; a completed loop applies the review gate
(`needs_review` when `run.review?.required && run.review.status !==
"approved"`, else `complete`). -/
def runPipelineAfterLoop (res : Run × Bool × List String) : Run × List String :=
  if res.2.1 = false then
    (res.1, res.2.2)
  else if res.1.review.required && res.1.review.status != "approved" then
    (setRunStatus res.1 .needs_review, res.2.2)
  else
    (setRunStatus res.1 .complete, res.2.2)

/-- `runPipeline(run)` of `index.js`, parametrised by the executor.
Sets the run `running`, walks the stage list (over `stagesToRun` from
`runModes[run.mode] ?? []`), then applies the review gate. Also
returns the invoked stage ids. -/
def runPipeline (exec : Executor) (run : Run) : Run × List String :=
  runPipelineAfterLoop
    (pipelineLoop exec ((runModes run.mode).getD [])
      (setRunStatus run .running) (setRunStatus run .running).stages)

/-- `runHitlStage(run)` of `index.js`; `requiresReview` is the value of
`Boolean(run.inputs?.forceReview) || Boolean(client?.hitl_review_needed)`
(its two inputs are elided fields, so it is a parameter here). -/
def runHitlStage (requiresReview : Bool) (run : Run) : ExecResult × Run :=
  let run' := { run with
    review := { required := requiresReview
                status := if requiresReview then "pending" else "approved" } }
  if requiresReview = false then
    ({ ok := true, skipped := true, message := some "Review not required" }, run')
  else
    ({ ok := true, message := some "Review required", reviewRequired := true },
      appendLogRun run' "hitl" "HITL review required before export." .info)

/-- `runDriftStage(run)` of `index.js`. -/
def runDriftStage (run : Run) : ExecResult × Run :=
  ({ ok := true, skipped := true, message := some "Not wired yet" },
    appendLogRun run "drift" "Drift check not wired yet. Marking stage as skipped." .info)

/-- `createExportArtifact(run)` of `index.js`; `t` is the clock value
used for `createdAt` and the serialized summary file path is kept only
as the file name. -/
def createExportArtifact (run : Run) (t : Nat) : Run :=
  { run with artifacts := run.artifacts ++
      [{ id := "export_" ++ run.runId
         name := "Run Export Summary"
         type := "json"
         stage := "export"
         createdAt := t
         path := some ("export_" ++ run.runId ++ ".json") }] }

/-- `runExportStage(run)` of `index.js`. -/
def runExportStage (run : Run) (t : Nat) : ExecResult × Run :=
  if run.review.required && run.review.status != "approved" then
    ({ ok := true, skipped := true, message := some "Waiting for review" },
      appendLogRun run "export" "Export waiting for HITL approval." .info)
  else
    ({ ok := true },
      appendLogRun (createExportArtifact run t) "export" "Export package created." .info)

/-- The filesystem facts `runIngestStage` of `index.js` probes with
`fs.existsSync`, plus the `ok` outcome of each of the three child
ingest commands it may spawn. -/
structure IngestEnv where
  linterExists : Bool
  refDirExists : Bool
  guidelinesExists : Bool
  clipOk : Bool
  e5Ok : Bool
  docsOk : Bool
deriving DecidableEq, Repr

/-- `runIngestStage(run)` of `index.js`. `brandId` stands for
`run.brandId ?? "cylndr"` and is also used in place of the interpolated
directory paths inside messages (the path roots are configuration
constants). Log lines produced by the spawned child processes
themselves are environment output and are elided; none of them is
produced by this executor. Note the two `ok:false` early returns: this
executor has **no** demo fallback. -/
def runIngestStage (env : IngestEnv) (brandId : String) (run : Run) :
    ExecResult × Run :=
  if env.linterExists = false then
    ({ ok := false, message := some "Brand linter path not found" }, run)
  else if env.refDirExists = false then
    ({ ok := false, message := some ("Reference images not found: " ++ brandId) }, run)
  else
    let r1 := appendLogRun run "ingest" ("Reference path: " ++ brandId) .info
    if env.clipOk = false then
      ({ ok := false, message := some "CLIP ingest failed" }, r1)
    else if env.e5Ok = false then
      ({ ok := false, message := some "E5 ingest failed" }, r1)
    else if env.guidelinesExists then
      let r2 := appendLogRun r1 "ingest" ("Guidelines path: " ++ brandId) .info
      if env.docsOk = false then
        ({ ok := false, message := some "Document ingest failed" }, r2)
      else
        ({ ok := true }, r2)
    else
      ({ ok := true },
        appendLogRun r1 "ingest" "Guidelines path not found, skipping documents ingest." .info)

/-- `POST /api/runs/:runId/cancel` of `index.js` for an existing run.
`active` is the `activeRuns.get(runId)` entry: the stage id of the live
child process, if any (`registerActiveRun` always stores both handle
and stage id together). With an active process the handler logs, kills
the child (elided) and marks the active stage `blocked`/"Canceled";
with or without one it then sets the run status to `canceled`. -/
def cancelRunEndpoint (run : Run) (active : Option String) : Run :=
  match active with
  | some sid =>
    setRunStatus
      (updateStage
        (appendLogRun run sid "Cancel requested. Attempting to stop the run." .info)
        sid fun t => { t with status := .blocked, message := some "Canceled" })
      .canceled
  | none => setRunStatus run .canceled

/-- `POST /api/runs/:runId/review/approve` of `index.js`. -/
def approveRun (run : Run) (notes : Option String) : Run :=
  setRunStatus
    (updateStage
      { run with review := { required := false, status := "approved", notes := notes } }
      "hitl" fun t => { t with status := .complete, message := some "Review approved" })
    .complete

/-- `POST /api/runs/:runId/review/reject` of `index.js`. -/
def rejectRun (run : Run) (notes : Option String) : Run :=
  setRunStatus
    (updateStage
      { run with review := { required := true, status := "rejected", notes := notes } }
      "hitl" fun t => { t with status := .blocked, message := some "Review rejected" })
    .blocked

/-- `POST /api/runs/:runId/export` of `index.js` for an existing run. -/
def exportRunEndpoint (run : Run) (t : Nat) : Run :=
  let run1 := createExportArtifact run t
  let run2 := updateStage run1 "export" fun s =>
    { s with status := .complete, message := some "Exported" }
  setRunStatus run2 (if run2.review.required then .needs_review else .complete)

/-- `GET /api/runs/:runId/artifacts` of `index.js` for an existing run:
the stored artifacts, or the single synthetic "Run Summary" placeholder
when the list is empty. -/
def artifactsForRun (run : Run) : List Artifact :=
  if run.artifacts.length > 0 then
    run.artifacts
  else
    [{ id := "summary_" ++ run.runId
       name := "Run Summary"
       type := "summary"
       stage := "export"
       createdAt := run.createdAt }]

/-- The demo client used by concrete evaluations below. -/
def demoClient : Client :=
  { id := "client_cylndr", name := "Cylndr" }

@[simp] lemma stages_updateStage (r : Run) (sid : String) (f : StageState → StageState) :
    (updateStage r sid f).stages = updateFirst sid f r.stages := rfl

@[simp] lemma stages_appendLogRun (r : Run) (sid m : String) (lv : Level) :
    (appendLogRun r sid m lv).stages = r.stages := by
  simp [appendLogRun]

@[simp] lemma stages_setRunStatus (r : Run) (st : RunStatus) :
    (setRunStatus r st).stages = r.stages := rfl

@[simp] lemma status_updateStage (r : Run) (sid : String) (f : StageState → StageState) :
    (updateStage r sid f).status = r.status := rfl

@[simp] lemma status_appendLogRun (r : Run) (sid m : String) (lv : Level) :
    (appendLogRun r sid m lv).status = r.status := by
  simp [appendLogRun]

@[simp] lemma status_setRunStatus (r : Run) (st : RunStatus) :
    (setRunStatus r st).status = st := rfl

@[simp] lemma review_updateStage (r : Run) (sid : String) (f : StageState → StageState) :
    (updateStage r sid f).review = r.review := rfl

@[simp] lemma review_appendLogRun (r : Run) (sid m : String) (lv : Level) :
    (appendLogRun r sid m lv).review = r.review := by
  simp [appendLogRun]

@[simp] lemma review_setRunStatus (r : Run) (st : RunStatus) :
    (setRunStatus r st).review = r.review := rfl

lemma updateFirst_map_sig {f : StageState → StageState}
    (hf : ∀ t, stageSig (f t) = stageSig t) (sid : String) :
    ∀ l : List StageState, (updateFirst sid f l).map stageSig = l.map stageSig := by
  intro l
  induction l with
  | nil => rfl
  | cons s rest ih =>
    simp only [updateFirst]
    by_cases h : s.id = sid
    · simp [h, hf]
    · simp [h, ih]

lemma updateFirst_map_id {f : StageState → StageState}
    (hf : ∀ t, stageSig (f t) = stageSig t) (sid : String)
    (l : List StageState) :
    (updateFirst sid f l).map StageState.id = l.map StageState.id := by
  have h := updateFirst_map_sig hf sid l
  have h2 := congrArg (List.map Prod.fst) h
  simpa [List.map_map, Function.comp, stageSig] using h2

lemma updateFirst_append_mem {sid : String} {f : StageState → StageState}
    {l1 : List StageState} (l2 : List StageState)
    (h : sid ∈ l1.map StageState.id) :
    updateFirst sid f (l1 ++ l2) = updateFirst sid f l1 ++ l2 := by
  induction l1 with
  | nil => simp at h
  | cons a l ih =>
    simp only [List.cons_append, updateFirst]
    by_cases ha : a.id = sid
    · simp [ha]
    · have h' : sid ∈ l.map StageState.id := by
        rcases List.mem_map.mp h with ⟨t, ht, hts⟩
        rcases List.mem_cons.mp ht with h1 | h1
        · exact absurd (h1 ▸ hts) ha
        · exact List.mem_map.mpr ⟨t, h1, hts⟩
      simp [ha, ih h']

lemma updateFirst_append_not_mem {sid : String} {f : StageState → StageState}
    {l1 : List StageState} (l2 : List StageState)
    (h : sid ∉ l1.map StageState.id) :
    updateFirst sid f (l1 ++ l2) = l1 ++ updateFirst sid f l2 := by
  induction l1 with
  | nil => rfl
  | cons a l ih =>
    have ha : ¬ a.id = sid := fun hc => h (List.mem_map.mpr ⟨a, List.mem_cons_self a l, hc⟩)
    have h' : sid ∉ l.map StageState.id := fun hc =>
      h (by
        rcases List.mem_map.mp hc with ⟨t, ht, hts⟩
        exact List.mem_map.mpr ⟨t, List.mem_cons_of_mem a ht, hts⟩)
    simp [updateFirst, ha, ih h']

lemma sig_patchRunning : ∀ t, stageSig (patchRunning t) = stageSig t := fun _ => rfl

lemma sig_patchSkipped : ∀ t, stageSig (patchSkipped t) = stageSig t := fun _ => rfl

lemma sig_patchCanceledStage : ∀ t, stageSig (patchCanceledStage t) = stageSig t :=
  fun _ => rfl

lemma sig_patchBlocked (m : String) : ∀ t, stageSig (patchBlocked m t) = stageSig t :=
  fun _ => rfl

lemma sig_patchSkipResult (m : Option String) :
    ∀ t, stageSig (patchSkipResult m t) = stageSig t := fun _ => rfl

lemma sig_patchComplete : ∀ t, stageSig (patchComplete t) = stageSig t := fun _ => rfl

/-- The run `execStep` hands to the executor has the stage marked
running and is otherwise unchanged except for logs. -/
lemma stages_execStep (exec : Executor) (s : StageState) (r : Run)
    (hpres : ∀ r s, ((exec r s).2).stages = r.stages) :
    ((execStep exec s r).2).stages = updateFirst s.id patchRunning r.stages := by
  simp [execStep, hpres]

lemma pipelineLoop_map_sig (exec : Executor) (sel : List String)
    (hpres : ∀ r s, ((exec r s).2).stages = r.stages) :
    ∀ (iter : List StageState) (r : Run),
      ((pipelineLoop exec sel r iter).1).stages.map stageSig = r.stages.map stageSig := by
  intro iter
  induction iter with
  | nil => intro r; rfl
  | cons s rest ih =>
    intro r
    simp only [pipelineLoop]
    by_cases h1 : sel.contains s.id = false
    · rw [if_pos h1, ih]
      simp only [stages_updateStage]
      exact updateFirst_map_sig sig_patchSkipped _ _
    · rw [if_neg h1]
      by_cases h2 : r.status = .canceled
      · rw [if_pos h2]
      · rw [if_neg h2]
        have hex := stages_execStep exec s r hpres
        by_cases h3 : (execStep exec s r).1.canceled = true
        · rw [if_pos h3]
          simp only [stages_setRunStatus, stages_updateStage, hex]
          rw [updateFirst_map_sig sig_patchCanceledStage,
            updateFirst_map_sig sig_patchRunning]
        · rw [if_neg h3]
          by_cases h4 : (execStep exec s r).1.ok = false
          · rw [if_pos h4]
            simp only [stages_setRunStatus, stages_appendLogRun, stages_updateStage, hex]
            rw [updateFirst_map_sig (sig_patchBlocked _),
              updateFirst_map_sig sig_patchRunning]
          · rw [if_neg h4]
            by_cases h5 : (execStep exec s r).1.skipped = true
            · rw [if_pos h5]
              rw [ih]
              simp only [stages_updateStage, hex]
              rw [updateFirst_map_sig (sig_patchSkipResult _),
                updateFirst_map_sig sig_patchRunning]
            · rw [if_neg h5]
              rw [ih]
              simp only [stages_appendLogRun, stages_updateStage, hex]
              rw [updateFirst_map_sig sig_patchComplete,
                updateFirst_map_sig sig_patchRunning]

/-- Modelled from the spec: `Stage Registry.stagesFor(mode)`, "the
Stage Registry's stage list for the run's `mode`" (e.g. `["drift"]` for
mode "drift") — used only to compare the specified stage list against
the one the source actually builds. -/
def stagesForSpec (mode : String) : List (String × String) :=
  ((runModes mode).getD []).filterMap fun sid =>
    stageTemplates.find? fun t => t.1 = sid

/-- C1 counterexample: a run created with mode "drift" does *not* get
the one-stage list `[drift]` the claim describes; `createStages()`
ignores the mode and freezes all five templates. -/
theorem c1_counterexample :
    (buildRunRecord "r1" demoClient "drift" 0).stages.map StageState.id ≠
      (stagesForSpec "drift").map Prod.fst ∧
    (buildRunRecord "r1" demoClient "drift" 0).stages.length = 5 ∧
    (stagesForSpec "drift").length = 1 := by
  decide

/-- C1 (amended): every created run's `stages` is the full five-entry
template list (ids/labels/order independent of `mode`; the mode only
selects which stages execute versus get skipped), and the pipeline
never re-orders or resizes it nor changes any id/label — for any
executor that leaves `run.stages` alone, as all executors in the
source do. -/
theorem run_stages_frozen (rid : String) (client : Client) (mode : String) (t : Nat)
    (exec : Executor) (run : Run)
    (hpres : ∀ r s, ((exec r s).2).stages = r.stages) :
    (buildRunRecord rid client mode t).stages = createStages ∧
    createStages.map stageSig = stageTemplates ∧
    ((runPipeline exec run).1).stages.map stageSig = run.stages.map stageSig := by
  refine ⟨rfl, by decide, ?_⟩
  have h := pipelineLoop_map_sig exec ((runModes run.mode).getD []) hpres
    (setRunStatus run .running).stages (setRunStatus run .running)
  simp only [runPipeline, runPipelineAfterLoop]
  split
  · simpa using h
  · split
    · simpa using h
    · simpa using h

/-- Witness for `run_stages_frozen` at a mode-"full" run and the
trivial executor. -/
theorem run_stages_frozen_witness :
    (buildRunRecord "r1" demoClient "full" 0).stages = createStages ∧
    createStages.map stageSig = stageTemplates ∧
    ((runPipeline (fun r _ => ({ ok := true }, r))
        (buildRunRecord "r1" demoClient "full" 0)).1).stages.map stageSig =
      (buildRunRecord "r1" demoClient "full" 0).stages.map stageSig :=
  run_stages_frozen "r1" demoClient "full" 0 (fun r _ => ({ ok := true }, r))
    (buildRunRecord "r1" demoClient "full" 0) (fun _ _ => rfl)

/-- C4 counterexample: a run already in the terminal status `complete`
with no active process is moved to `canceled` by the cancel endpoint —
the cancel request is not the status-preserving no-op the claim
states. -/
theorem c4_counterexample :
    (cancelRunEndpoint
      { buildRunRecord "r1" demoClient "full" 0 with status := RunStatus.complete }
      none).status = RunStatus.canceled ∧
    RunStatus.canceled ≠ RunStatus.complete := by
  decide

/-- C4 (amended): terminal statuses are not protected by the endpoint
handlers. A cancel request for a run with no active process marks no
stage and appends no log, but still unconditionally sets the status to
`canceled`; the export endpoint rewrites any status to `complete` (or
`needs_review` when review is required), and the review decisions set
`complete`/`blocked` regardless of the run's current status. -/
theorem terminal_status_not_enforced (run : Run) (t : Nat) (notes : Option String) :
    (cancelRunEndpoint run none).status = RunStatus.canceled ∧
    (cancelRunEndpoint run none).stages = run.stages ∧
    (cancelRunEndpoint run none).logs = run.logs ∧
    (approveRun run notes).status = RunStatus.complete ∧
    (rejectRun run notes).status = RunStatus.blocked ∧
    (exportRunEndpoint run t).status =
      (if run.review.required then RunStatus.needs_review else RunStatus.complete) :=
  ⟨rfl, rfl, rfl, rfl, rfl, rfl⟩

/-- C10: the artifact listing endpoint substitutes exactly one
synthetic "Run Summary" placeholder (with the run's own `createdAt`)
for an empty artifact list, and returns the stored artifacts verbatim
otherwise. -/
theorem artifacts_endpoint_placeholder (run : Run) :
    (run.artifacts = [] →
      artifactsForRun run =
        [{ id := "summary_" ++ run.runId
           name := "Run Summary"
           type := "summary"
           stage := "export"
           createdAt := run.createdAt }]) ∧
    (run.artifacts ≠ [] → artifactsForRun run = run.artifacts) := by
  constructor
  · intro h
    simp [artifactsForRun, h]
  · intro h
    have : run.artifacts.length > 0 := List.length_pos.mpr h
    simp [artifactsForRun, this]

/-- Witness for `artifacts_endpoint_placeholder`: a fresh run gets the
placeholder; a run holding an export artifact gets its own list. -/
theorem artifacts_endpoint_placeholder_witness :
    artifactsForRun (buildRunRecord "r1" demoClient "full" 7) =
      [{ id := "summary_r1"
         name := "Run Summary"
         type := "summary"
         stage := "export"
         createdAt := 7 }] ∧
    artifactsForRun (createExportArtifact (buildRunRecord "r2" demoClient "full" 3) 5) =
      (createExportArtifact (buildRunRecord "r2" demoClient "full" 3) 5).artifacts :=
  ⟨(artifacts_endpoint_placeholder _).1 rfl,
   (artifacts_endpoint_placeholder _).2 (by decide)⟩

/-- A stage at which the loop keeps going for every incoming run state:
either the mode does not select it (so its executor is never invoked),
or its executor reports neither cancellation nor failure and preserves
the run status. Stage preservation is assumed globally (`hpres` in the
theorems): no executor in the source writes `run.stages`. -/
def ContinuesAt (exec : Executor) (sel : List String) (s : StageState) : Prop :=
  sel.contains s.id = false ∨
    ∀ r : Run, (exec r s).1.canceled = false ∧ (exec r s).1.ok = true ∧
      ((exec r s).2).status = r.status

lemma pipelineLoop_cons_unsel (exec : Executor) (sel : List String)
    (r : Run) (s : StageState) (rest : List StageState)
    (h1 : sel.contains s.id = false) :
    pipelineLoop exec sel r (s :: rest) =
      pipelineLoop exec sel (updateStage r s.id patchSkipped) rest := by
  simp only [pipelineLoop]
  rw [if_pos h1]

lemma pipelineLoop_cons_canceled (exec : Executor) (sel : List String)
    (r : Run) (s : StageState) (rest : List StageState)
    (h1 : ¬ sel.contains s.id = false)
    (h2 : ¬ r.status = .canceled)
    (h3 : (execStep exec s r).1.canceled = true) :
    pipelineLoop exec sel r (s :: rest) =
      (setRunStatus
        (updateStage (execStep exec s r).2 s.id patchCanceledStage) .canceled,
       false, [s.id]) := by
  simp only [pipelineLoop]
  rw [if_neg h1, if_neg h2, if_pos h3]

lemma pipelineLoop_cons_failed (exec : Executor) (sel : List String)
    (r : Run) (s : StageState) (rest : List StageState)
    (h1 : ¬ sel.contains s.id = false)
    (h2 : ¬ r.status = .canceled)
    (h3 : ¬ (execStep exec s r).1.canceled = true)
    (h4 : (execStep exec s r).1.ok = false) :
    pipelineLoop exec sel r (s :: rest) =
      (setRunStatus
        (appendLogRun
          (updateStage (execStep exec s r).2 s.id
            (patchBlocked ((execStep exec s r).1.message.getD "Stage failed")))
          s.id ((execStep exec s r).1.message.getD "Stage failed") .error)
        .blocked, false, [s.id]) := by
  simp only [pipelineLoop]
  rw [if_neg h1, if_neg h2, if_neg h3, if_pos h4]

lemma pipelineLoop_cons_skipres (exec : Executor) (sel : List String)
    (r : Run) (s : StageState) (rest : List StageState)
    (h1 : ¬ sel.contains s.id = false)
    (h2 : ¬ r.status = .canceled)
    (h3 : ¬ (execStep exec s r).1.canceled = true)
    (h4 : ¬ (execStep exec s r).1.ok = false)
    (h5 : (execStep exec s r).1.skipped = true) :
    pipelineLoop exec sel r (s :: rest) =
      ((pipelineLoop exec sel
          (updateStage (execStep exec s r).2 s.id
            (patchSkipResult (execStep exec s r).1.message)) rest).1,
       (pipelineLoop exec sel
          (updateStage (execStep exec s r).2 s.id
            (patchSkipResult (execStep exec s r).1.message)) rest).2.1,
       s.id ::
       (pipelineLoop exec sel
          (updateStage (execStep exec s r).2 s.id
            (patchSkipResult (execStep exec s r).1.message)) rest).2.2) := by
  simp only [pipelineLoop]
  rw [if_neg h1, if_neg h2, if_neg h3, if_neg h4, if_pos h5]

lemma pipelineLoop_cons_completed (exec : Executor) (sel : List String)
    (r : Run) (s : StageState) (rest : List StageState)
    (h1 : ¬ sel.contains s.id = false)
    (h2 : ¬ r.status = .canceled)
    (h3 : ¬ (execStep exec s r).1.canceled = true)
    (h4 : ¬ (execStep exec s r).1.ok = false)
    (h5 : ¬ (execStep exec s r).1.skipped = true) :
    pipelineLoop exec sel r (s :: rest) =
      ((pipelineLoop exec sel
          (appendLogRun (updateStage (execStep exec s r).2 s.id patchComplete)
            s.id (s.label ++ " complete.") .info) rest).1,
       (pipelineLoop exec sel
          (appendLogRun (updateStage (execStep exec s r).2 s.id patchComplete)
            s.id (s.label ++ " complete.") .info) rest).2.1,
       s.id ::
       (pipelineLoop exec sel
          (appendLogRun (updateStage (execStep exec s r).2 s.id patchComplete)
            s.id (s.label ++ " complete.") .info) rest).2.2) := by
  simp only [pipelineLoop]
  rw [if_neg h1, if_neg h2, if_neg h3, if_neg h4, if_neg h5]


/-- Walking a prefix of continuing stages. Starting from a `running`
run whose stage list splits as `done ++ pre ++ rest` (`done` already
processed, `pre` about to be iterated, `rest` beyond), if every stage
of `pre` continues, the loop on `pre ++ rest` reaches `rest` in some
run state that is still `running`, whose stage list is `done' ++ rest`
with `done'` carrying the same ids/labels as `done ++ pre`, having
invoked only executors of `pre` stages. -/
lemma pipelineLoop_traverse (exec : Executor) (sel : List String)
    (hpres : ∀ r s, ((exec r s).2).stages = r.stages) :
    ∀ pre : List StageState, (∀ p ∈ pre, ContinuesAt exec sel p) →
      ∀ (done rest : List StageState) (r : Run),
        r.status = .running →
        r.stages = done ++ pre ++ rest →
        ∃ (r' : Run) (done' : List StageState) (inv1 : List String),
          r'.status = .running ∧
          done'.map stageSig = (done ++ pre).map stageSig ∧
          r'.stages = done' ++ rest ∧
          (∀ x ∈ inv1, x ∈ pre.map StageState.id) ∧
          pipelineLoop exec sel r (pre ++ rest) =
            ((pipelineLoop exec sel r' rest).1,
             (pipelineLoop exec sel r' rest).2.1,
             inv1 ++ (pipelineLoop exec sel r' rest).2.2) := by
  intro pre
  induction pre with
  | nil =>
    intro _ done rest r hst hstg
    refine ⟨r, done, [], hst, by simp, by simpa using hstg, by simp, ?_⟩
    simp
  | cons p pre2 ih =>
    intro hcont done rest r hst hstg
    have hcp := hcont p (List.mem_cons_self p pre2)
    have hcont2 : ∀ q ∈ pre2, ContinuesAt exec sel q :=
      fun q hq => hcont q (List.mem_cons_of_mem p hq)
    have hmem : p.id ∈ (done ++ [p]).map StageState.id := by simp
    have hsplit : done ++ (p :: pre2) ++ rest = (done ++ [p]) ++ (pre2 ++ rest) := by
      simp
    by_cases h1 : sel.contains p.id = false
    · -- stage not selected by the mode: marked skipped, executor not invoked
      have hstg1 : (updateStage r p.id patchSkipped).stages =
          updateFirst p.id patchSkipped (done ++ [p]) ++ pre2 ++ rest := by
        rw [stages_updateStage, hstg, hsplit, updateFirst_append_mem _ hmem,
          ← List.append_assoc]
      obtain ⟨r', done', inv1, h'st, h'sig, h'stg, h'inv, h'eq⟩ :=
        ih hcont2 (updateFirst p.id patchSkipped (done ++ [p])) rest
          (updateStage r p.id patchSkipped) (by simpa using hst) hstg1
      refine ⟨r', done', inv1, h'st, ?_, h'stg, ?_, ?_⟩
      · rw [h'sig, List.map_append, updateFirst_map_sig sig_patchSkipped]
        simp
      · intro x hx
        have := h'inv x hx
        simp only [List.map_cons, List.mem_cons]
        exact Or.inr this
      · simp only [List.cons_append]
        rw [pipelineLoop_cons_unsel exec sel r p (pre2 ++ rest) h1, h'eq]
    · -- selected stage whose executor continues
      rcases hcp with hcp | hcp
      · exact absurd hcp h1
      have h2 : ¬ r.status = .canceled := by
        rw [hst]
        simp
      have hc1 : (execStep exec p r).1.canceled = false := (hcp _).1
      have hc2 : (execStep exec p r).1.ok = true := (hcp _).2.1
      have hc3 : ((execStep exec p r).2).status = r.status := by
        have h := (hcp (appendLogRun (updateStage r p.id patchRunning)
          p.id (p.label ++ " started.") .info)).2.2
        simpa [execStep] using h
      have h3 : ¬ (execStep exec p r).1.canceled = true := by
        rw [hc1]
        simp
      have h4 : ¬ (execStep exec p r).1.ok = false := by
        rw [hc2]
        simp
      have hexstg : ((execStep exec p r).2).stages =
          updateFirst p.id patchRunning (done ++ [p]) ++ (pre2 ++ rest) := by
        rw [stages_execStep exec p r hpres, hstg, hsplit, updateFirst_append_mem _ hmem]
      have hmem2 : p.id ∈ (updateFirst p.id patchRunning (done ++ [p])).map StageState.id := by
        rw [updateFirst_map_id sig_patchRunning]
        exact hmem
      by_cases h5 : (execStep exec p r).1.skipped = true
      · -- executor answered { skipped: true }
        have hstg4 :
            (updateStage (execStep exec p r).2 p.id
              (patchSkipResult (execStep exec p r).1.message)).stages =
            updateFirst p.id (patchSkipResult (execStep exec p r).1.message)
              (updateFirst p.id patchRunning (done ++ [p])) ++ pre2 ++ rest := by
          rw [stages_updateStage, hexstg, updateFirst_append_mem _ hmem2,
            ← List.append_assoc]
        obtain ⟨r', done', inv1, h'st, h'sig, h'stg, h'inv, h'eq⟩ :=
          ih hcont2
            (updateFirst p.id (patchSkipResult (execStep exec p r).1.message)
              (updateFirst p.id patchRunning (done ++ [p]))) rest
            (updateStage (execStep exec p r).2 p.id
              (patchSkipResult (execStep exec p r).1.message))
            (by simp [hc3, hst]) hstg4
        refine ⟨r', done', p.id :: inv1, h'st, ?_, h'stg, ?_, ?_⟩
        · rw [h'sig, List.map_append, updateFirst_map_sig (sig_patchSkipResult _),
            updateFirst_map_sig sig_patchRunning]
          simp
        · intro x hx
          simp only [List.map_cons, List.mem_cons]
          rcases List.mem_cons.mp hx with hx | hx
          · exact Or.inl hx
          · exact Or.inr (h'inv x hx)
        · simp only [List.cons_append]
          rw [pipelineLoop_cons_skipres exec sel r p (pre2 ++ rest) h1 h2 h3 h4 h5, h'eq]
      · -- executor answered plain success
        have hstg4 :
            (appendLogRun (updateStage (execStep exec p r).2 p.id patchComplete)
              p.id (p.label ++ " complete.") .info).stages =
            updateFirst p.id patchComplete
              (updateFirst p.id patchRunning (done ++ [p])) ++ pre2 ++ rest := by
          rw [stages_appendLogRun, stages_updateStage, hexstg,
            updateFirst_append_mem _ hmem2, ← List.append_assoc]
        obtain ⟨r', done', inv1, h'st, h'sig, h'stg, h'inv, h'eq⟩ :=
          ih hcont2
            (updateFirst p.id patchComplete
              (updateFirst p.id patchRunning (done ++ [p]))) rest
            (appendLogRun (updateStage (execStep exec p r).2 p.id patchComplete)
              p.id (p.label ++ " complete.") .info)
            (by simp [hc3, hst]) hstg4
        refine ⟨r', done', p.id :: inv1, h'st, ?_, h'stg, ?_, ?_⟩
        · rw [h'sig, List.map_append, updateFirst_map_sig sig_patchComplete,
            updateFirst_map_sig sig_patchRunning]
          simp
        · intro x hx
          simp only [List.map_cons, List.mem_cons]
          rcases List.mem_cons.mp hx with hx | hx
          · exact Or.inl hx
          · exact Or.inr (h'inv x hx)
        · simp only [List.cons_append]
          rw [pipelineLoop_cons_completed exec sel r p (pre2 ++ rest) h1 h2 h3 h4 h5, h'eq]

lemma map_id_of_map_sig {l1 l2 : List StageState}
    (h : l1.map stageSig = l2.map stageSig) :
    l1.map StageState.id = l2.map StageState.id := by
  have h2 := congrArg (List.map Prod.fst) h
  simpa [List.map_map, Function.comp, stageSig] using h2

lemma execStep_def (exec : Executor) (s : StageState) (r : Run) :
    execStep exec s r =
      exec (appendLogRun (updateStage r s.id patchRunning)
        s.id (s.label ++ " started.") .info) s := rfl

/-- The executor the pipeline actually observes when a cancel request
arrives while the ingest stage's CLIP child process is running.
Concurrently with the await, the cancel endpoint logs, marks the
active stage `blocked`/"Canceled" and sets the run `canceled`; the
killed child's `close` handler then resolves `{ok:false,
canceled:true}` (`runCommand` checks `run.status === "canceled"`), but
`runIngestStage` tests only `.ok` and returns `{ ok:false,
message:"CLIP ingest failed" }` — the `canceled` flag is dropped
(`runGenerateStage` drops it the same way). Composed here as the
endpoint effect followed by `runIngestStage` with a failing CLIP
command; in the source the endpoint's mutations land just after the
executor's "Reference path" log line, so their position relative to
that line affects only the log interleaving, not the stage or status
outcome traced below. -/
def canceledClipIngestExec : Executor := fun r s =>
  if s.id = "ingest" then
    runIngestStage
      { linterExists := true, refDirExists := true, guidelinesExists := false,
        clipOk := false, e5Ok := true, docsOk := true }
      "cylndr" (cancelRunEndpoint r (some "ingest"))
  else ({ ok := true }, r)

/-- C2: a run canceled while stage k is running does **not** end
`canceled` with stage k carrying the message "Canceled". Mid-stage the
cancel endpoint has put the run in exactly that state (first conjunct:
the run handed back to the loop is `canceled`), but the executor drops
`runCommand`'s `canceled` flag (second conjunct), so the pipeline's
`!result?.ok` branch overwrites the stage message with "CLIP ingest
failed" and the final run status with `blocked` — the
`result?.canceled` branch, which would produce the claimed and
spec-described `blocked`("Canceled")/`canceled` outcome (cf.
`pipelineLoop_cons_canceled`), is unreachable with the source's
executors. The rest of the claim does hold on this trace: stages after
k stay `pending` and no executor past k is invoked (last two
conjuncts). -/
theorem c2_cancel_divergence :
    ((canceledClipIngestExec (buildRunRecord "r1" demoClient "ingest" 0)
        { id := "ingest", label := "Ingest and Index", status := .running }).2).status =
      RunStatus.canceled ∧
    ((canceledClipIngestExec (buildRunRecord "r1" demoClient "ingest" 0)
        { id := "ingest", label := "Ingest and Index", status := .running }).1).canceled =
      false ∧
    ((runPipeline canceledClipIngestExec (buildRunRecord "r1" demoClient "ingest" 0)).1).status =
      RunStatus.blocked ∧
    RunStatus.blocked ≠ RunStatus.canceled ∧
    ((runPipeline canceledClipIngestExec (buildRunRecord "r1" demoClient "ingest" 0)).1).stages =
      [{ id := "ingest", label := "Ingest and Index", status := .blocked, message := some "CLIP ingest failed" },
       { id := "generate", label := "Generate", status := .pending },
       { id := "drift", label := "Drift Check", status := .pending },
       { id := "hitl", label := "HITL Gate", status := .pending },
       { id := "export", label := "Export Package", status := .pending }] ∧
    (runPipeline canceledClipIngestExec (buildRunRecord "r1" demoClient "ingest" 0)).2 =
      ["ingest"] := by
  decide

/-- C5: stage failure short-circuits. If every stage before `sk`
continues, `sk` is selected and its executor reports a failure with
message `msg`, then `sk` is marked `blocked` with that message, the run
finishes `blocked`, every stage after `sk` is left exactly as it was
(`pending` ones stay `pending` forever), and no executor after `sk` is
ever invoked. -/
theorem runPipeline_failure_short_circuit (exec : Executor) (run : Run)
    (pre post : List StageState) (sk : StageState) (msg : String)
    (hpres : ∀ r s, ((exec r s).2).stages = r.stages)
    (hstages : run.stages = pre ++ sk :: post)
    (hcont : ∀ p ∈ pre, ContinuesAt exec ((runModes run.mode).getD []) p)
    (hsel : ((runModes run.mode).getD []).contains sk.id = true)
    (hid : sk.id ∉ pre.map StageState.id)
    (hfail : ∀ r : Run, (exec r sk).1 = { ok := false, message := some msg }) :
    ((runPipeline exec run).1).status = RunStatus.blocked ∧
    (∃ pre' : List StageState, pre'.map stageSig = pre.map stageSig ∧
      ((runPipeline exec run).1).stages =
        pre' ++ { sk with status := .blocked, message := some msg } :: post) ∧
    (∃ inv1 : List String, (∀ x ∈ inv1, x ∈ pre.map StageState.id) ∧
      (runPipeline exec run).2 = inv1 ++ [sk.id]) := by
  obtain ⟨r', done', inv1, h'st, h'sig, h'stg, h'inv, h'eq⟩ :=
    pipelineLoop_traverse exec ((runModes run.mode).getD []) hpres pre hcont
      [] (sk :: post) (setRunStatus run .running) rfl (by simpa using hstages)
  have h1 : ¬ ((runModes run.mode).getD []).contains sk.id = false := by
    rw [hsel]
    simp
  have h2 : ¬ r'.status = .canceled := by
    rw [h'st]
    simp
  have hres : (execStep exec sk r').1 = { ok := false, message := some msg } := by
    rw [execStep_def]
    exact hfail _
  have h3 : ¬ (execStep exec sk r').1.canceled = true := by
    rw [hres]
    simp
  have h4 : (execStep exec sk r').1.ok = false := by
    rw [hres]
  have heq2 := pipelineLoop_cons_failed exec ((runModes run.mode).getD [])
    r' sk post h1 h2 h3 h4
  have hid' : sk.id ∉ done'.map StageState.id := by
    have hids := map_id_of_map_sig h'sig
    simp only [List.nil_append] at hids
    rw [hids]
    exact hid
  have hstg2 : ((execStep exec sk r').2).stages =
      done' ++ { sk with status := .running } :: post := by
    rw [stages_execStep exec sk r' hpres, h'stg,
      updateFirst_append_not_mem _ hid']
    simp [updateFirst, patchRunning]
  have hmsg : (execStep exec sk r').1.message.getD "Stage failed" = msg := by
    rw [hres]
    rfl
  have hstg3 :
      (appendLogRun
        (updateStage (execStep exec sk r').2 sk.id
          (patchBlocked ((execStep exec sk r').1.message.getD "Stage failed")))
        sk.id ((execStep exec sk r').1.message.getD "Stage failed") .error).stages =
      done' ++ { sk with status := .blocked, message := some msg } :: post := by
    rw [stages_appendLogRun, stages_updateStage, hstg2,
      updateFirst_append_not_mem _ hid', hmsg]
    simp [updateFirst, patchBlocked]
  have hrp : runPipeline exec run =
      (setRunStatus
        (appendLogRun
          (updateStage (execStep exec sk r').2 sk.id
            (patchBlocked ((execStep exec sk r').1.message.getD "Stage failed")))
          sk.id ((execStep exec sk r').1.message.getD "Stage failed") .error)
        .blocked, inv1 ++ [sk.id]) := by
    have hstg0 : (setRunStatus run .running).stages = pre ++ sk :: post := by
      simpa using hstages
    simp only [runPipeline, hstg0]
    rw [show pre ++ sk :: post = pre ++ (sk :: post) from rfl, h'eq, heq2]
    simp [runPipelineAfterLoop]
  refine ⟨?_, ⟨done', by simpa using h'sig, ?_⟩, ⟨inv1, by simpa using h'inv, ?_⟩⟩
  · rw [hrp]
    rfl
  · rw [hrp]
    simpa using hstg3
  · rw [hrp]

/-- A concrete executor for witnesses: fails at the "generate" stage
with the message real generation failures produce, succeeds
elsewhere. -/
def failAtGenerate : Executor := fun r s =>
  if s.id = "generate" then
    ({ ok := false, message := some "Image generation failed" }, r)
  else ({ ok := true }, r)

/-- Witness for `runPipeline_failure_short_circuit`: a mode-"full" run
whose "generate" stage fails. -/
theorem runPipeline_failure_short_circuit_witness :
    ((runPipeline failAtGenerate (buildRunRecord "r1" demoClient "full" 0)).1).status =
      RunStatus.blocked ∧
    (∃ pre' : List StageState,
      pre'.map stageSig =
        [({ id := "ingest", label := "Ingest and Index", status := .pending } :
            StageState)].map stageSig ∧
      ((runPipeline failAtGenerate (buildRunRecord "r1" demoClient "full" 0)).1).stages =
        pre' ++
          { id := "generate", label := "Generate", status := .blocked,
            message := some "Image generation failed" } ::
          [{ id := "drift", label := "Drift Check", status := .pending },
           { id := "hitl", label := "HITL Gate", status := .pending },
           { id := "export", label := "Export Package", status := .pending }]) ∧
    (∃ inv1 : List String,
      (∀ x ∈ inv1,
        x ∈ [({ id := "ingest", label := "Ingest and Index", status := .pending } :
          StageState)].map StageState.id) ∧
      (runPipeline failAtGenerate (buildRunRecord "r1" demoClient "full" 0)).2 =
        inv1 ++ ["generate"]) := by
  refine runPipeline_failure_short_circuit failAtGenerate
    (buildRunRecord "r1" demoClient "full" 0)
    [{ id := "ingest", label := "Ingest and Index", status := .pending }]
    [{ id := "drift", label := "Drift Check", status := .pending },
     { id := "hitl", label := "HITL Gate", status := .pending },
     { id := "export", label := "Export Package", status := .pending }]
    { id := "generate", label := "Generate", status := .pending }
    "Image generation failed"
    ?_ (by decide) ?_ (by decide) (by decide) ?_
  · intro r s
    simp only [failAtGenerate]
    split <;> rfl
  · intro p hp
    simp only [List.mem_singleton] at hp
    subst hp
    right
    intro r
    exact ⟨rfl, rfl, rfl⟩
  · intro r
    rfl

@[simp] lemma status_createExportArtifact (r : Run) (t : Nat) :
    (createExportArtifact r t).status = r.status := by
  simp [createExportArtifact]

@[simp] lemma stages_createExportArtifact (r : Run) (t : Nat) :
    (createExportArtifact r t).stages = r.stages := by
  simp [createExportArtifact]

/-- `runHitlStage` with review required parks the review state at
`{ required: true, status: "pending" }` — the only way the source ever
produces `required = true` outside the reject endpoint (which writes
`"rejected"`); a `required = true` review state is therefore never
`"approved"`. -/
lemma runHitlStage_review_pending (run : Run) :
    ((runHitlStage true run).2).review = { required := true, status := "pending" } := by
  simp [runHitlStage]

lemma runHitlStage_continues (b : Bool) (r : Run) :
    (runHitlStage b r).1.canceled = false ∧ (runHitlStage b r).1.ok = true ∧
    ((runHitlStage b r).2).status = r.status ∧
    ((runHitlStage b r).2).stages = r.stages := by
  cases b <;> simp [runHitlStage, appendLogRun]

lemma runExportStage_continues (r : Run) (t : Nat) :
    (runExportStage r t).1.canceled = false ∧ (runExportStage r t).1.ok = true ∧
    ((runExportStage r t).2).status = r.status ∧
    ((runExportStage r t).2).stages = r.stages := by
  simp only [runExportStage]
  split
  · exact ⟨rfl, rfl, by simp, by simp⟩
  · exact ⟨rfl, rfl, by simp, by simp⟩

/-- C6: the review gate. If every stage of the run continues (the
successful-completion scenario) and the run emerges from the stage
loop with `review.required = true` and a review status other than
"approved" (the state `runHitlStage` leaves, see
`runHitlStage_review_pending`), the run ends `needs_review` instead of
`complete`; the approve endpoint then yields `complete` and the reject
endpoint `blocked`. -/
theorem runPipeline_review_gate (exec : Executor) (run : Run) (notes : Option String)
    (hpres : ∀ r s, ((exec r s).2).stages = r.stages)
    (hcont : ∀ p ∈ run.stages, ContinuesAt exec ((runModes run.mode).getD []) p)
    (hreq : ((pipelineLoop exec ((runModes run.mode).getD [])
        (setRunStatus run .running) run.stages).1).review.required = true)
    (happr : ((pipelineLoop exec ((runModes run.mode).getD [])
        (setRunStatus run .running) run.stages).1).review.status ≠ "approved") :
    ((runPipeline exec run).1).status = RunStatus.needs_review ∧
    (approveRun (runPipeline exec run).1 notes).status = RunStatus.complete ∧
    (rejectRun (runPipeline exec run).1 notes).status = RunStatus.blocked := by
  obtain ⟨r', done', inv1, h'st, h'sig, h'stg, h'inv, h'eq⟩ :=
    pipelineLoop_traverse exec ((runModes run.mode).getD []) hpres run.stages hcont
      [] [] (setRunStatus run .running) rfl (by simp)
  have hnil : pipelineLoop exec ((runModes run.mode).getD []) r' [] = (r', true, []) := rfl
  have hdone : pipelineLoop exec ((runModes run.mode).getD [])
      (setRunStatus run .running) run.stages = (r', true, inv1) := by
    have h := h'eq
    rw [List.append_nil] at h
    rw [h, hnil]
    simp
  have hreq' : r'.review.required = true := by
    rw [hdone] at hreq
    exact hreq
  have happr' : r'.review.status ≠ "approved" := by
    rw [hdone] at happr
    exact happr
  have hfinal : runPipeline exec run = (setRunStatus r' .needs_review, inv1) := by
    simp only [runPipeline, stages_setRunStatus]
    rw [hdone]
    simp [runPipelineAfterLoop, hreq', bne_iff_ne, happr']
  rw [hfinal]
  exact ⟨rfl, rfl, rfl⟩

/-- A concrete executor for the review-gate witness: `runHitlStage`
with review required at the gate, the real export executor, plain
success elsewhere. -/
def reviewRequiredExec : Executor := fun r s =>
  if s.id = "hitl" then runHitlStage true r
  else if s.id = "export" then runExportStage r 0
  else ({ ok := true }, r)

lemma reviewRequiredExec_pres (r : Run) (s : StageState) :
    ((reviewRequiredExec r s).2).stages = r.stages := by
  simp only [reviewRequiredExec]
  split
  · exact (runHitlStage_continues true r).2.2.2
  · split
    · exact (runExportStage_continues r 0).2.2.2
    · rfl

set_option maxRecDepth 8000 in
/-- Witness for `runPipeline_review_gate`: a mode-"full" run whose HITL
gate demands review. -/
theorem runPipeline_review_gate_witness :
    ((runPipeline reviewRequiredExec (buildRunRecord "r1" demoClient "full" 0)).1).status =
      RunStatus.needs_review ∧
    (approveRun (runPipeline reviewRequiredExec
        (buildRunRecord "r1" demoClient "full" 0)).1 none).status = RunStatus.complete ∧
    (rejectRun (runPipeline reviewRequiredExec
        (buildRunRecord "r1" demoClient "full" 0)).1 none).status = RunStatus.blocked := by
  refine runPipeline_review_gate reviewRequiredExec
    (buildRunRecord "r1" demoClient "full" 0) none reviewRequiredExec_pres ?_
    (by decide) (by decide)
  intro p hp
  right
  intro r
  have hp' : p ∈ createStages := hp
  simp only [createStages, stageTemplates, List.map_cons, List.mem_cons] at hp'
  rcases hp' with h | h | h | h | h | h
  · subst h
    exact ⟨rfl, rfl, rfl⟩
  · subst h
    exact ⟨rfl, rfl, rfl⟩
  · subst h
    exact ⟨rfl, rfl, rfl⟩
  · subst h
    exact ⟨rfl, rfl, rfl⟩
  · subst h
    exact ⟨(runExportStage_continues r 0).1, (runExportStage_continues r 0).2.1,
      (runExportStage_continues r 0).2.2.1⟩
  · simp at h

/-- The filesystem facts the worker module's `executeIngestStage`
probes: whether each of its three candidate `possiblePaths` data
directories exists, and whether the `brand_dna_indexer.py` child
process (run only when a directory was found) succeeds. -/
structure WorkerEnv where
  brandDirExists : Bool
  refDirExists : Bool
  lifestyleDirExists : Bool
  indexerOk : Bool
deriving DecidableEq, Repr

/-- `run.clientId.replace("client_", "")` of the worker module
(JavaScript `replace` replaces the first occurrence; `String.replace`
replaces all, which coincides whenever the pattern occurs at most
once, as for every client id in the repository). -/
def workerBrandName (clientId : String) : String :=
  clientId.replace "client_" ""

/-- `executeIngestStage(run)` of the worker runner module, as the pair
(returned boolean, emitted log entries in order). Paths interpolated
into messages are elided and the source's quotes around the brand name
dropped; the per-line child-process output relayed by its `runCommand`
in the real-indexer branch is environment output and elided (the
`[DEMO]` lines below are the executor's own). Note every control path
returns `true`: even a failing real indexer falls back to demo mode. -/
def executeIngestStage (env : WorkerEnv) (clientId : String) :
    Bool × List LogEntry :=
  let brandName := workerBrandName clientId
  let start : List LogEntry :=
    [{ msg := "Starting Brand Memory ingest and index...", stage := "ingest",
       level := .info }]
  if env.brandDirExists || env.refDirExists || env.lifestyleDirExists then
    if env.indexerOk then
      (true, start ++
        [{ msg := "Using images from: ...", stage := "ingest", level := .info }])
    else
      (true, start ++
        [{ msg := "Using images from: ...", stage := "ingest", level := .info },
         { msg := "Real indexer failed - falling back to demo mode",
           stage := "ingest", level := .warn },
         { msg := "[DEMO] Brand Memory indexed (simulated)", stage := "ingest",
           level := .info }])
  else
    (true, start ++
      [{ msg := "No data directory found for brand " ++ brandName,
         stage := "ingest", level := .warn },
       { msg := "Searched: ...", stage := "ingest", level := .warn },
       { msg := "Running in demo mode - simulating ingest...", stage := "ingest",
         level := .info },
       { msg := "[DEMO] Scanning brand assets for " ++ brandName ++ "...",
         stage := "ingest", level := .info },
       { msg := "[DEMO] Generating CLIP embeddings...", stage := "ingest",
         level := .info },
       { msg := "[DEMO] Indexing to vector store...", stage := "ingest",
         level := .info },
       { msg := "[DEMO] Brand Memory indexed successfully", stage := "ingest",
         level := .info }])

/-- C3 counterexample: the os-api ingest executor (`runIngestStage` in
`index.js`, the one the run pipeline invokes) has *no* demo fallback —
against a missing per-client reference-image directory it returns the
failure outcome `{ok:false}` with a "Reference images not found"
message and emits no `[DEMO]` log line at all, contradicting the
claimed `{ok:true}` demo path. -/
theorem c3_counterexample :
    ((runIngestStage
      { linterExists := true, refDirExists := false, guidelinesExists := false,
        clipOk := true, e5Ok := true, docsOk := true }
      "cylndr" (buildRunRecord "r1" demoClient "ingest" 0)).1).ok = false ∧
    ((runIngestStage
      { linterExists := true, refDirExists := false, guidelinesExists := false,
        clipOk := true, e5Ok := true, docsOk := true }
      "cylndr" (buildRunRecord "r1" demoClient "ingest" 0)).1).message =
      some "Reference images not found: cylndr" ∧
    (runIngestStage
      { linterExists := true, refDirExists := false, guidelinesExists := false,
        clipOk := true, e5Ok := true, docsOk := true }
      "cylndr" (buildRunRecord "r1" demoClient "ingest" 0)).2 =
      buildRunRecord "r1" demoClient "ingest" 0 := by
  decide

/-- C3 (amended): the demo fallback lives in the *worker* module's
ingest executor, which against absent asset directories returns
success with `[DEMO]`-tagged log lines (indeed it returns `true` on
every path); the os-api ingest executor instead returns the failure
outcome `{ok:false, message}` — still a returned value, not a thrown
fault (the embedding is a total function). -/
theorem ingest_demo_fallback (env : WorkerEnv) (clientId : String)
    (ienv : IngestEnv) (brandId : String) (run : Run)
    (h1 : env.brandDirExists = false) (h2 : env.refDirExists = false)
    (h3 : env.lifestyleDirExists = false)
    (h4 : ienv.linterExists = true) (h5 : ienv.refDirExists = false) :
    (executeIngestStage env clientId).1 = true ∧
    (∃ e ∈ (executeIngestStage env clientId).2,
      e.msg.toList.take 6 = "[DEMO]".toList) ∧
    ((runIngestStage ienv brandId run).1).ok = false ∧
    (runIngestStage ienv brandId run).2 = run := by
  refine ⟨?_, ?_, ?_, ?_⟩
  · simp [executeIngestStage, h1, h2, h3]
  · refine ⟨LogEntry.mk "[DEMO] Generating CLIP embeddings..." "ingest" Level.info,
      ?_, by decide⟩
    simp [executeIngestStage, h1, h2, h3]
  · simp [runIngestStage, h4, h5]
  · simp [runIngestStage, h4, h5]

/-- Witness for `ingest_demo_fallback` on concrete environments. -/
theorem ingest_demo_fallback_witness :
    (executeIngestStage
      { brandDirExists := false, refDirExists := false, lifestyleDirExists := false,
        indexerOk := true } "client_cylndr").1 = true ∧
    (∃ e ∈ (executeIngestStage
      { brandDirExists := false, refDirExists := false, lifestyleDirExists := false,
        indexerOk := true } "client_cylndr").2,
      e.msg.toList.take 6 = "[DEMO]".toList) ∧
    ((runIngestStage
      { linterExists := true, refDirExists := false, guidelinesExists := false,
        clipOk := true, e5Ok := true, docsOk := true }
      "cylndr" (buildRunRecord "r2" demoClient "ingest" 0)).1).ok = false ∧
    (runIngestStage
      { linterExists := true, refDirExists := false, guidelinesExists := false,
        clipOk := true, e5Ok := true, docsOk := true }
      "cylndr" (buildRunRecord "r2" demoClient "ingest" 0)).2 =
      buildRunRecord "r2" demoClient "ingest" 0 :=
  ingest_demo_fallback
    { brandDirExists := false, refDirExists := false, lifestyleDirExists := false,
      indexerOk := true } "client_cylndr"
    { linterExists := true, refDirExists := false, guidelinesExists := false,
      clipOk := true, e5Ok := true, docsOk := true }
    "cylndr" (buildRunRecord "r2" demoClient "ingest" 0)
    rfl rfl rfl rfl rfl

/-- `buffer.split(/\r?\n/)` of `runCommand`'s `bufferOutput`, on
`List Char`: the completed pieces (all but the last) and the trailing
piece (`lines.pop()`), splitting at newline characters. A `"\r"`
consumed by the source's regex always sits at the end of a completed
piece and is removed there by the subsequent `trim`, so splitting at
`'\n'` alone yields the same emitted lines and the same buffer. -/
def splitNl : List Char → List (List Char) × List Char
  | [] => ([], [])
  | c :: rest =>
    let r := splitNl rest
    if c = '\n' then ([] :: r.1, r.2)
    else
      match r.1 with
      | [] => ([], c :: r.2)
      | l :: ls => ((c :: l) :: ls, r.2)

/-- How the split of a concatenation composes from the two splits:
the left buffer prepends to the right side's first piece. -/
def joinSplit (p q : List (List Char) × List Char) :
    List (List Char) × List Char :=
  match q.1 with
  | [] => (p.1, p.2 ++ q.2)
  | l :: ls => (p.1 ++ (p.2 ++ l) :: ls, q.2)

lemma splitNl_cons (c : Char) (rest : List Char) :
    splitNl (c :: rest) =
      (if c = '\n' then ([] :: (splitNl rest).1, (splitNl rest).2)
       else
        match (splitNl rest).1 with
        | [] => ([], c :: (splitNl rest).2)
        | l :: ls => ((c :: l) :: ls, (splitNl rest).2)) := rfl

lemma splitNl_append (a b : List Char) :
    splitNl (a ++ b) = joinSplit (splitNl a) (splitNl b) := by
  induction a with
  | nil =>
    rw [List.nil_append]
    rcases hsb : splitNl b with ⟨bl, bb⟩
    cases bl <;> simp [joinSplit, splitNl]
  | cons c a ih =>
    rw [List.cons_append, splitNl_cons, splitNl_cons, ih]
    rcases hsa : splitNl a with ⟨al, ab⟩
    rcases hsb : splitNl b with ⟨bl, bb⟩
    by_cases hc : c = '\n'
    · simp only [if_pos hc]
      cases bl <;> simp [joinSplit]
    · simp only [if_neg hc]
      cases al <;> cases bl <;> simp [joinSplit]

lemma splitNl_no_newline (l : List Char) (h : '\n' ∉ l) :
    splitNl l = ([], l) := by
  induction l with
  | nil => rfl
  | cons c rest ih =>
    have hc : ¬ c = '\n' := fun hcc => h (hcc ▸ List.mem_cons_self c rest)
    have hr : '\n' ∉ rest := fun hm => h (List.mem_cons_of_mem c hm)
    simp only [splitNl, ih hr, if_neg hc]

lemma splitNl_buffer_no_newline (l : List Char) : '\n' ∉ (splitNl l).2 := by
  induction l with
  | nil => simp [splitNl]
  | cons c rest ih =>
    rw [splitNl_cons]
    by_cases hc : c = '\n'
    · simp only [if_pos hc]
      exact ih
    · simp only [if_neg hc]
      match h : (splitNl rest).1 with
      | [] =>
        show '\n' ∉ c :: (splitNl rest).2
        intro hm
        rcases List.mem_cons.mp hm with hm | hm
        · exact hc hm.symm
        · exact ih hm
      | l' :: ls' =>
        show '\n' ∉ (splitNl rest).2
        exact ih

/-- `line.trim()` on `List Char`. -/
def trimLine (l : List Char) : List Char :=
  ((l.dropWhile Char.isWhitespace).reverse.dropWhile Char.isWhitespace).reverse

/-- One `data` event of `bufferOutput`: append the chunk to the held
buffer, split off the completed lines, trim each, drop the blank ones
(`.map(trim).filter(Boolean)`), keep the last piece as the new
buffer. Returns (lines to log, new buffer). -/
def emitChunk (buf chunk : List Char) : List (List Char) × List Char :=
  ((splitNl (buf ++ chunk)).1.map trimLine |>.filter (fun l => l ≠ []),
   (splitNl (buf ++ chunk)).2)

/-- Folding `emitChunk` over a whole chunk sequence, collecting the
emitted lines in order. -/
def feedStream : List Char → List (List Char) → List (List Char) × List Char
  | buf, [] => ([], buf)
  | buf, c :: cs =>
    ((emitChunk buf c).1 ++ (feedStream (emitChunk buf c).2 cs).1,
     (feedStream (emitChunk buf c).2 cs).2)

lemma joinSplit_split (p q : List (List Char) × List Char) :
    (joinSplit p q).1 = p.1 ++ (joinSplit ([], p.2) q).1 ∧
    (joinSplit p q).2 = (joinSplit ([], p.2) q).2 := by
  match h : q.1 with
  | [] => simp [joinSplit, h]
  | l :: ls => simp [joinSplit, h]

/-- The emitted lines of a chunk-fold are the trimmed non-blank
completed lines of the concatenation, and the final buffer is the
concatenation's trailing piece. -/
lemma feedStream_join (cs : List (List Char)) :
    ∀ buf : List Char, '\n' ∉ buf →
      (feedStream buf cs).1 =
        ((splitNl (buf ++ cs.flatten)).1.map trimLine).filter (fun l => l ≠ []) ∧
      (feedStream buf cs).2 = (splitNl (buf ++ cs.flatten)).2 := by
  induction cs with
  | nil =>
    intro buf hb
    rw [List.flatten_nil, List.append_nil, splitNl_no_newline buf hb]
    exact ⟨rfl, rfl⟩
  | cons c cs ih =>
    intro buf hb
    have hb2 : '\n' ∉ (emitChunk buf c).2 := splitNl_buffer_no_newline _
    obtain ⟨ih1, ih2⟩ := ih (emitChunk buf c).2 hb2
    have hsplit : splitNl (buf ++ (c :: cs).flatten) =
        joinSplit (splitNl (buf ++ c)) (splitNl cs.flatten) := by
      rw [List.flatten_cons, ← List.append_assoc]
      exact splitNl_append (buf ++ c) cs.flatten
    have hsplit2 : splitNl ((emitChunk buf c).2 ++ cs.flatten) =
        joinSplit (([], (splitNl (buf ++ c)).2)) (splitNl cs.flatten) := by
      rw [show (emitChunk buf c).2 = (splitNl (buf ++ c)).2 from rfl,
        splitNl_append, splitNl_no_newline _ (splitNl_buffer_no_newline (buf ++ c))]
    obtain ⟨hj1, hj2⟩ := joinSplit_split (splitNl (buf ++ c)) (splitNl cs.flatten)
    constructor
    · simp only [feedStream]
      rw [ih1, hsplit2, hsplit, hj1]
      simp only [List.map_append, List.filter_append]
      rfl
    · simp only [feedStream]
      rw [ih2, hsplit2, hsplit, hj2]

/-- The externally-visible events of a spawned child process, in the
order the Node event loop delivers them: stdout/stderr `data` chunks,
the `error` event (spawn failure) and the `close` event with the exit
code (`none` models a `null` code after a signal kill). -/
inductive ProcEvent where
  | out (chunk : List Char)
  | err (chunk : List Char)
  | errored (msg : String)
  | closed (code : Option Int)
deriving DecidableEq, Repr

/-- What the `runCommand` promise resolves with. -/
structure CmdOutcome where
  ok : Bool
  canceled : Bool
  code : Option Int
deriving DecidableEq, Repr

/-- The state of one `runCommand` invocation: the run record it logs
into, the two line buffers of `bufferOutput("info")` /
`bufferOutput("error")`, the log entries broadcast so far (each
`appendLog` call also broadcasts its entry), and the resolved value
(`none` while the promise is pending; a promise resolves only once). -/
structure CmdState where
  run : Run
  outBuf : List Char
  errBuf : List Char
  emitted : List LogEntry
  result : Option CmdOutcome
deriving DecidableEq, Repr

/-- `lines.forEach(line => appendLog(run, stageId, line, level))`:
threads the run while collecting the appended entries. -/
def appendLogs (run : Run) (sid : String) (level : Level) :
    List (List Char) → Run × List LogEntry
  | [] => (run, [])
  | l :: ls =>
    ((appendLogs (appendLogRun run sid (String.mk l) level) sid level ls).1,
     mkLogEntry run sid (String.mk l) level ::
       (appendLogs (appendLogRun run sid (String.mk l) level) sid level ls).2)

/-- One event-handler step of `runCommand` in `index.js`:
* `data` on stdout/stderr runs `bufferOutput`'s handler at `info` /
  `error` level;
* `error` appends the single synthetic
  `"Process error: <message>"` log line at `error` level and resolves
  `{ok:false, code:1}` (`clearActiveRun` elided);
* `close` resolves `{ok:false, canceled:true}` when the run was
  canceled, else `{ok: code === 0}`; it flushes nothing. -/
def cmdStep (sid : String) (s : CmdState) : ProcEvent → CmdState
  | .out chunk =>
    { s with
      run := (appendLogs s.run sid .info (emitChunk s.outBuf chunk).1).1
      outBuf := (emitChunk s.outBuf chunk).2
      emitted := s.emitted ++ (appendLogs s.run sid .info (emitChunk s.outBuf chunk).1).2 }
  | .err chunk =>
    { s with
      run := (appendLogs s.run sid .error (emitChunk s.errBuf chunk).1).1
      errBuf := (emitChunk s.errBuf chunk).2
      emitted := s.emitted ++ (appendLogs s.run sid .error (emitChunk s.errBuf chunk).1).2 }
  | .errored msg =>
    { s with
      run := appendLogRun s.run sid ("Process error: " ++ msg) .error
      emitted := s.emitted ++ [mkLogEntry s.run sid ("Process error: " ++ msg) .error]
      result := match s.result with
        | some r => some r
        | none => some { ok := false, canceled := false, code := some 1 } }
  | .closed code =>
    match s.result with
    | some _ => s
    | none =>
      if s.run.status = .canceled then
        { s with result := some { ok := false, canceled := true, code := code } }
      else
        { s with result := some (CmdOutcome.mk (decide (code = some 0)) false code) }

/-- `runCommand` of `index.js` over a delivered event sequence,
starting with empty line buffers and a pending promise. -/
def runCommand (sid : String) (run : Run) (events : List ProcEvent) : CmdState :=
  events.foldl (cmdStep sid)
    { run := run, outBuf := [], errBuf := [], emitted := [], result := none }

/-- The stdout chunks of an event sequence. -/
def outChunksOf (events : List ProcEvent) : List (List Char) :=
  events.filterMap fun e =>
    match e with
    | .out c => some c
    | _ => none

/-- The stderr chunks of an event sequence. -/
def errChunksOf (events : List ProcEvent) : List (List Char) :=
  events.filterMap fun e =>
    match e with
    | .err c => some c
    | _ => none

lemma appendLogs_snd (sid : String) (lv : Level) :
    ∀ (ls : List (List Char)) (run : Run),
      (appendLogs run sid lv ls).2 =
        ls.map fun l => LogEntry.mk (String.mk l) (stageLabelOf run sid) lv := by
  intro ls
  induction ls with
  | nil => intro run; rfl
  | cons l ls ih =>
    intro run
    simp only [appendLogs, List.map_cons]
    rw [ih]
    have hlab : stageLabelOf (appendLogRun run sid (String.mk l) lv) sid =
        stageLabelOf run sid := by
      simp [stageLabelOf]
    rw [hlab]
    rfl

lemma entries_filter_same (lab : String) (lv : Level) (lines : List (List Char)) :
    (((lines.map fun l => LogEntry.mk (String.mk l) lab lv).filter
      (fun e => e.level == lv)).map LogEntry.msg) = lines.map fun l => String.mk l := by
  induction lines with
  | nil => rfl
  | cons l ls ih => simp [List.filter, ih]

lemma entries_filter_other (lab : String) (lv lv' : Level) (h : ¬ lv = lv')
    (lines : List (List Char)) :
    ((lines.map fun l => LogEntry.mk (String.mk l) lab lv).filter
      (fun e => e.level == lv')) = [] := by
  induction lines with
  | nil => rfl
  | cons l ls ih => simp [List.filter, ih, beq_eq_false_iff_ne.mpr h]

lemma cmdStep_closed_shape (sid : String) (s : CmdState) (code : Option Int) :
    (cmdStep sid s (.closed code)).emitted = s.emitted ∧
    (cmdStep sid s (.closed code)).outBuf = s.outBuf ∧
    (cmdStep sid s (.closed code)).errBuf = s.errBuf := by
  rcases s with ⟨run, ob, eb, em, res⟩
  cases res with
  | none =>
    simp only [cmdStep]
    by_cases h : run.status = .canceled <;> simp [h]
  | some r => exact ⟨rfl, rfl, rfl⟩

/-- Per-stream characterisation of the stdout side of the event fold:
`info`-level emissions are exactly the buffered-line emissions of the
stdout chunks, and the final stdout buffer is the fold of those
chunks. -/
lemma cmd_fold_out (sid : String) :
    ∀ (evs : List ProcEvent) (s : CmdState),
      (∀ m, ProcEvent.errored m ∉ evs) →
      ((((evs.foldl (cmdStep sid) s).emitted).filter
          (fun e => e.level == Level.info)).map LogEntry.msg =
        ((s.emitted.filter (fun e => e.level == Level.info)).map LogEntry.msg) ++
          ((feedStream s.outBuf (outChunksOf evs)).1.map fun l => String.mk l)) ∧
      (evs.foldl (cmdStep sid) s).outBuf =
        (feedStream s.outBuf (outChunksOf evs)).2 := by
  intro evs
  induction evs with
  | nil =>
    intro s _
    simp [outChunksOf, feedStream]
  | cons e evs ih =>
    intro s hno
    have hno' : ∀ m, ProcEvent.errored m ∉ evs := fun m hm =>
      hno m (List.mem_cons_of_mem e hm)
    cases e with
    | out chunk =>
      obtain ⟨ih1, ih2⟩ := ih (cmdStep sid s (.out chunk)) hno'
      have hout : outChunksOf (ProcEvent.out chunk :: evs) =
          chunk :: outChunksOf evs := by
        simp [outChunksOf]
      constructor
      · rw [List.foldl_cons, ih1]
        simp only [cmdStep]
        rw [appendLogs_snd, List.filter_append, List.map_append,
          entries_filter_same, hout]
        simp only [feedStream, List.map_append]
        rw [List.append_assoc]
      · rw [List.foldl_cons, ih2]
        simp only [cmdStep, hout, feedStream]
        rfl
    | err chunk =>
      obtain ⟨ih1, ih2⟩ := ih (cmdStep sid s (.err chunk)) hno'
      have hout : outChunksOf (ProcEvent.err chunk :: evs) = outChunksOf evs := by
        simp [outChunksOf]
      constructor
      · rw [List.foldl_cons, ih1]
        simp only [cmdStep]
        rw [appendLogs_snd, List.filter_append, List.map_append,
          entries_filter_other _ _ _ (by simp), hout]
        simp
      · rw [List.foldl_cons, ih2]
        simp only [cmdStep, hout]
    | errored msg => exact absurd (List.mem_cons_self _ _) (hno msg)
    | closed code =>
      obtain ⟨ih1, ih2⟩ := ih (cmdStep sid s (.closed code)) hno'
      obtain ⟨hem, hob, _⟩ := cmdStep_closed_shape sid s code
      have hout : outChunksOf (ProcEvent.closed code :: evs) = outChunksOf evs := by
        simp [outChunksOf]
      constructor
      · rw [List.foldl_cons, ih1, hem, hob, hout]
      · rw [List.foldl_cons, ih2, hob, hout]

/-- Per-stream characterisation of the stderr side, symmetric to
`cmd_fold_out`. -/
lemma cmd_fold_err (sid : String) :
    ∀ (evs : List ProcEvent) (s : CmdState),
      (∀ m, ProcEvent.errored m ∉ evs) →
      ((((evs.foldl (cmdStep sid) s).emitted).filter
          (fun e => e.level == Level.error)).map LogEntry.msg =
        ((s.emitted.filter (fun e => e.level == Level.error)).map LogEntry.msg) ++
          ((feedStream s.errBuf (errChunksOf evs)).1.map fun l => String.mk l)) ∧
      (evs.foldl (cmdStep sid) s).errBuf =
        (feedStream s.errBuf (errChunksOf evs)).2 := by
  intro evs
  induction evs with
  | nil =>
    intro s _
    simp [errChunksOf, feedStream]
  | cons e evs ih =>
    intro s hno
    have hno' : ∀ m, ProcEvent.errored m ∉ evs := fun m hm =>
      hno m (List.mem_cons_of_mem e hm)
    cases e with
    | err chunk =>
      obtain ⟨ih1, ih2⟩ := ih (cmdStep sid s (.err chunk)) hno'
      have hout : errChunksOf (ProcEvent.err chunk :: evs) =
          chunk :: errChunksOf evs := by
        simp [errChunksOf]
      constructor
      · rw [List.foldl_cons, ih1]
        simp only [cmdStep]
        rw [appendLogs_snd, List.filter_append, List.map_append,
          entries_filter_same, hout]
        simp only [feedStream, List.map_append]
        rw [List.append_assoc]
      · rw [List.foldl_cons, ih2]
        simp only [cmdStep, hout, feedStream]
        rfl
    | out chunk =>
      obtain ⟨ih1, ih2⟩ := ih (cmdStep sid s (.out chunk)) hno'
      have hout : errChunksOf (ProcEvent.out chunk :: evs) = errChunksOf evs := by
        simp [errChunksOf]
      constructor
      · rw [List.foldl_cons, ih1]
        simp only [cmdStep]
        rw [appendLogs_snd, List.filter_append, List.map_append,
          entries_filter_other _ _ _ (by simp), hout]
        simp
      · rw [List.foldl_cons, ih2]
        simp only [cmdStep, hout]
    | errored msg => exact absurd (List.mem_cons_self _ _) (hno msg)
    | closed code =>
      obtain ⟨ih1, ih2⟩ := ih (cmdStep sid s (.closed code)) hno'
      obtain ⟨hem, _, heb⟩ := cmdStep_closed_shape sid s code
      have hout : errChunksOf (ProcEvent.closed code :: evs) = errChunksOf evs := by
        simp [errChunksOf]
      constructor
      · rw [List.foldl_cons, ih1, hem, heb, hout]
      · rw [List.foldl_cons, ih2, heb, hout]

/-- Modelled from the spec: "the Process Runner produces one log event
per complete line ... holding any partial line (no newline yet) in a
buffer until its newline arrives, and flushing a remaining partial
line as a log event when the process exits" — every completed line
(blank or not, untrimmed) becomes an event and the trailing partial
line is flushed at exit. Used only to compare the claimed behaviour
against the source's. -/
def specLineEvents (chunks : List (List Char)) : List (List Char) :=
  (splitNl chunks.flatten).1 ++
    (if (splitNl chunks.flatten).2 = [] then []
     else [(splitNl chunks.flatten).2])

/-- C7 counterexample: one stdout chunk `"a\n\nb"` followed by process
exit. The claim predicts three events ("a", "", and the flushed
partial "b"); `runCommand` emits exactly one ("a"): the blank line is
filtered out and the partial line held in the buffer is discarded at
`close`, never flushed. -/
theorem c7_counterexample :
    ((runCommand "ingest" (buildRunRecord "r1" demoClient "ingest" 0)
        [ProcEvent.out ("a\n\nb".toList), ProcEvent.closed (some 0)]).emitted.map
        LogEntry.msg) ≠
      (specLineEvents [("a\n\nb".toList)]).map (fun l => String.mk l) := by
  decide

/-- C7 (amended): `runCommand` is line-buffered per stream — over any
event sequence (without spawn errors) the `info`-level log events are
exactly the *trimmed, non-blank completed* lines of the concatenated
stdout chunks in order, and the `error`-level events those of stderr;
a partial line is held in the stream's buffer until its newline
arrives, and a partial line still buffered when the process exits
remains in the buffer — it is discarded, not flushed as an event. -/
theorem runCommand_line_buffered (sid : String) (run : Run) (evs : List ProcEvent)
    (hno : ∀ m, ProcEvent.errored m ∉ evs) :
    (((runCommand sid run evs).emitted.filter
        (fun e => e.level == Level.info)).map LogEntry.msg =
      (((splitNl (outChunksOf evs).flatten).1.map trimLine).filter
        (fun l => l ≠ [])).map (fun l => String.mk l)) ∧
    (((runCommand sid run evs).emitted.filter
        (fun e => e.level == Level.error)).map LogEntry.msg =
      (((splitNl (errChunksOf evs).flatten).1.map trimLine).filter
        (fun l => l ≠ [])).map (fun l => String.mk l)) ∧
    (runCommand sid run evs).outBuf = (splitNl (outChunksOf evs).flatten).2 ∧
    (runCommand sid run evs).errBuf = (splitNl (errChunksOf evs).flatten).2 := by
  obtain ⟨ho1, ho2⟩ := cmd_fold_out sid evs
    { run := run, outBuf := [], errBuf := [], emitted := [], result := none } hno
  obtain ⟨he1, he2⟩ := cmd_fold_err sid evs
    { run := run, outBuf := [], errBuf := [], emitted := [], result := none } hno
  have hfo := feedStream_join (outChunksOf evs) [] (by simp)
  have hfe := feedStream_join (errChunksOf evs) [] (by simp)
  rw [List.nil_append] at hfo hfe
  refine ⟨?_, ?_, ?_, ?_⟩
  · rw [show runCommand sid run evs = List.foldl (cmdStep sid)
      { run := run, outBuf := [], errBuf := [], emitted := [], result := none } evs
      from rfl, ho1, hfo.1]
    simp
  · rw [show runCommand sid run evs = List.foldl (cmdStep sid)
      { run := run, outBuf := [], errBuf := [], emitted := [], result := none } evs
      from rfl, he1, hfe.1]
    simp
  · rw [show runCommand sid run evs = List.foldl (cmdStep sid)
      { run := run, outBuf := [], errBuf := [], emitted := [], result := none } evs
      from rfl, ho2, hfo.2]
  · rw [show runCommand sid run evs = List.foldl (cmdStep sid)
      { run := run, outBuf := [], errBuf := [], emitted := [], result := none } evs
      from rfl, he2, hfe.2]

/-- Witness for `runCommand_line_buffered`: stdout chunks
`"hel"`,`"lo\nwor"` and an stderr chunk `"oops\ntail"` followed by
exit — "hello" is emitted at `info` once its newline arrives, "oops"
at `error`, and the partials "wor"/"tail" stay in the buffers. -/
theorem runCommand_line_buffered_witness :
    (((runCommand "ingest" (buildRunRecord "r1" demoClient "ingest" 0)
        [ProcEvent.out ("hel".toList), ProcEvent.out ("lo\nwor".toList),
         ProcEvent.err ("oops\ntail".toList), ProcEvent.closed (some 0)]).emitted.filter
        (fun e => e.level == Level.info)).map LogEntry.msg =
      (((splitNl (outChunksOf
        [ProcEvent.out ("hel".toList), ProcEvent.out ("lo\nwor".toList),
         ProcEvent.err ("oops\ntail".toList), ProcEvent.closed (some 0)]).flatten).1.map
        trimLine).filter (fun l => l ≠ [])).map (fun l => String.mk l)) ∧
    (((runCommand "ingest" (buildRunRecord "r1" demoClient "ingest" 0)
        [ProcEvent.out ("hel".toList), ProcEvent.out ("lo\nwor".toList),
         ProcEvent.err ("oops\ntail".toList), ProcEvent.closed (some 0)]).emitted.filter
        (fun e => e.level == Level.error)).map LogEntry.msg =
      (((splitNl (errChunksOf
        [ProcEvent.out ("hel".toList), ProcEvent.out ("lo\nwor".toList),
         ProcEvent.err ("oops\ntail".toList), ProcEvent.closed (some 0)]).flatten).1.map
        trimLine).filter (fun l => l ≠ [])).map (fun l => String.mk l)) ∧
    (runCommand "ingest" (buildRunRecord "r1" demoClient "ingest" 0)
        [ProcEvent.out ("hel".toList), ProcEvent.out ("lo\nwor".toList),
         ProcEvent.err ("oops\ntail".toList), ProcEvent.closed (some 0)]).outBuf =
      (splitNl (outChunksOf
        [ProcEvent.out ("hel".toList), ProcEvent.out ("lo\nwor".toList),
         ProcEvent.err ("oops\ntail".toList), ProcEvent.closed (some 0)]).flatten).2 ∧
    (runCommand "ingest" (buildRunRecord "r1" demoClient "ingest" 0)
        [ProcEvent.out ("hel".toList), ProcEvent.out ("lo\nwor".toList),
         ProcEvent.err ("oops\ntail".toList), ProcEvent.closed (some 0)]).errBuf =
      (splitNl (errChunksOf
        [ProcEvent.out ("hel".toList), ProcEvent.out ("lo\nwor".toList),
         ProcEvent.err ("oops\ntail".toList), ProcEvent.closed (some 0)]).flatten).2 :=
  runCommand_line_buffered "ingest" (buildRunRecord "r1" demoClient "ingest" 0)
    [ProcEvent.out ("hel".toList), ProcEvent.out ("lo\nwor".toList),
     ProcEvent.err ("oops\ntail".toList), ProcEvent.closed (some 0)]
    (by intro m h; simp at h)

/-- C8: a spawn failure (the child's `error` event, e.g. executable
not found) makes `runCommand` resolve with `{ok:false, code:1}` after
emitting exactly one synthetic `error`-level log line
`"Process error: <message>"`; the embedding is a total function — the
failure is a resolved value, never a thrown fault. -/
theorem runCommand_spawn_failure (sid : String) (run : Run) (msg : String) :
    (runCommand sid run [ProcEvent.errored msg]).result =
      some { ok := false, canceled := false, code := some 1 } ∧
    (runCommand sid run [ProcEvent.errored msg]).emitted =
      [{ msg := "Process error: " ++ msg, stage := stageLabelOf run sid,
         level := Level.error }] :=
  ⟨rfl, rfl⟩

/-- The events `sendEvent` writes on a run's SSE channel. -/
inductive SseEvent where
  | snapshot (run : Run) (logs : List LogEntry)
  | log (e : LogEntry)
  | stage (s : StageState)
  | status (s : RunStatus)
deriving DecidableEq, Repr

/-- The operations touching one run's SSE channel:
* `subscribe` is the `GET /api/runs/:runId/logs` handler — it sends the
  `snapshot` event (current run + full log buffer) to the new client
  *before* adding it to `sseClients`;
* `publishLog` is `appendLog` (mutate `run.logs`, broadcast `log`);
* `publishStage` is `updateStage` (patch the stage, broadcast `stage`
  with the patched stage object);
* `publishStatus` is `setRunStatus` (set the status, broadcast
  `status`). -/
inductive SseOp where
  | subscribe (cid : Nat)
  | publishLog (e : LogEntry)
  | publishStage (sg : StageState)
  | publishStatus (z : RunStatus)
deriving DecidableEq, Repr

/-- One SSE client (`res` object): its identity and the events written
to it, in order. -/
structure Subscriber where
  cid : Nat
  received : List SseEvent
deriving DecidableEq, Repr

/-- The state of one run's channel: the run record and the subscriber
set (`sseClients.get(runId)`). -/
structure SseState where
  run : Run
  subs : List Subscriber
deriving DecidableEq, Repr

def sseStep (st : SseState) : SseOp → SseState
  | .subscribe cid =>
    { st with subs := st.subs ++
        [{ cid := cid, received := [SseEvent.snapshot st.run st.run.logs] }] }
  | .publishLog e =>
    { run := { st.run with logs := lastN 400 (st.run.logs ++ [e]) }
      subs := st.subs.map fun s => { s with received := s.received ++ [SseEvent.log e] } }
  | .publishStage sg =>
    { run := { st.run with stages := updateFirst sg.id (fun _ => sg) st.run.stages }
      subs := st.subs.map fun s => { s with received := s.received ++ [SseEvent.stage sg] } }
  | .publishStatus z =>
    { run := { st.run with status := z }
      subs := st.subs.map fun s => { s with received := s.received ++ [SseEvent.status z] } }

/-- A whole operation sequence on one run's channel. -/
def runOps (st : SseState) (ops : List SseOp) : SseState :=
  ops.foldl sseStep st

/-- The live event an operation broadcasts (`none` for a subscribe). -/
def eventOf : SseOp → Option SseEvent
  | .subscribe _ => none
  | .publishLog e => some (.log e)
  | .publishStage sg => some (.stage sg)
  | .publishStatus z => some (.status z)

/-- Look a subscriber up by identity. -/
def subById (st : SseState) (cid : Nat) : Option Subscriber :=
  st.subs.find? fun s => s.cid == cid

lemma find?_append_some {α : Type} {p : α → Bool} {l1 : List α} {x : α}
    (h : l1.find? p = some x) (l2 : List α) : (l1 ++ l2).find? p = some x := by
  induction l1 with
  | nil => simp at h
  | cons a l ih =>
    rw [List.cons_append]
    cases hp : p a with
    | true =>
      rw [List.find?_cons_of_pos _ hp] at h ⊢
      exact h
    | false =>
      rw [List.find?_cons_of_neg _ (by simp [hp])] at h ⊢
      exact ih h

lemma find?_append_none {α : Type} {p : α → Bool} {l1 : List α}
    (h : l1.find? p = none) (l2 : List α) :
    (l1 ++ l2).find? p = l2.find? p := by
  induction l1 with
  | nil => rfl
  | cons a l ih =>
    rw [List.cons_append]
    cases hp : p a with
    | true =>
      rw [List.find?_cons_of_pos _ hp] at h
      exact absurd h (by simp)
    | false =>
      rw [List.find?_cons_of_neg _ (by simp [hp])] at h ⊢
      exact ih h

lemma find?_map_received {l : List Subscriber} {cid : Nat} {x : Subscriber}
    (ev : SseEvent) (h : l.find? (fun s => s.cid == cid) = some x) :
    (l.map fun s => { s with received := s.received ++ [ev] }).find?
      (fun s => s.cid == cid) = some { x with received := x.received ++ [ev] } := by
  induction l with
  | nil => simp at h
  | cons a l ih =>
    rw [List.map_cons]
    by_cases hp : (a.cid == cid) = true
    · simp only [List.find?, hp] at h ⊢
      rw [Option.some_inj] at h
      subst h
      rfl
    · have hp2 : (a.cid == cid) = false := by simpa using hp
      simp only [List.find?, hp2] at h ⊢
      exact ih h

/-- After a subscriber with identity `cid` holds received list `R`,
any operation sequence that contains no second subscription under the
same identity extends its received list by exactly the broadcast
events of the sequence, in order. -/
lemma runOps_received (cid : Nat) :
    ∀ (ops : List SseOp) (st : SseState) (R : List SseEvent),
      subById st cid = some { cid := cid, received := R } →
      (∀ op ∈ ops, op ≠ SseOp.subscribe cid) →
      subById (runOps st ops) cid =
        some { cid := cid, received := R ++ ops.filterMap eventOf } := by
  intro ops
  induction ops with
  | nil =>
    intro st R h _
    simpa [runOps] using h
  | cons op ops ih =>
    intro st R h hnot
    have hnot' : ∀ o ∈ ops, o ≠ SseOp.subscribe cid := fun o ho =>
      hnot o (List.mem_cons_of_mem op ho)
    have hstep : runOps st (op :: ops) = runOps (sseStep st op) ops := rfl
    rw [hstep]
    cases op with
    | subscribe cid' =>
      have hne : ¬ cid' = cid := fun hc =>
        hnot _ (List.mem_cons_self _ _) (by rw [hc])
      have h2 : subById (sseStep st (.subscribe cid')) cid =
          some { cid := cid, received := R } := by
        simp only [sseStep, subById]
        exact find?_append_some h _
      have := ih _ _ h2 hnot'
      simpa [eventOf] using this
    | publishLog e =>
      have h2 : subById (sseStep st (.publishLog e)) cid =
          some { cid := cid, received := R ++ [SseEvent.log e] } := by
        simp only [sseStep, subById]
        exact find?_map_received _ h
      have := ih _ _ h2 hnot'
      simpa [eventOf] using this
    | publishStage sg =>
      have h2 : subById (sseStep st (.publishStage sg)) cid =
          some { cid := cid, received := R ++ [SseEvent.stage sg] } := by
        simp only [sseStep, subById]
        exact find?_map_received _ h
      have := ih _ _ h2 hnot'
      simpa [eventOf] using this
    | publishStatus z =>
      have h2 : subById (sseStep st (.publishStatus z)) cid =
          some { cid := cid, received := R ++ [SseEvent.status z] } := by
        simp only [sseStep, subById]
        exact find?_map_received _ h
      have := ih _ _ h2 hnot'
      simpa [eventOf] using this

/-- C9: snapshot first, then the live feed. A client that opens the
log subscription after `ops1` has already run (and is not re-used as
an identity later) receives first the `snapshot` event carrying the
run record and full log buffer as they stand at subscription time,
and then exactly the events published after it subscribed, in publish
order. -/
theorem sse_snapshot_then_live (st0 : SseState) (ops1 ops2 : List SseOp) (cid : Nat)
    (hfresh : ∀ s ∈ (runOps st0 ops1).subs, ¬ s.cid = cid)
    (hnot2 : ∀ op ∈ ops2, op ≠ SseOp.subscribe cid) :
    subById (runOps st0 (ops1 ++ SseOp.subscribe cid :: ops2)) cid =
      some { cid := cid
             received := SseEvent.snapshot (runOps st0 ops1).run
                 (runOps st0 ops1).run.logs :: ops2.filterMap eventOf } := by
  have h1 : runOps st0 (ops1 ++ SseOp.subscribe cid :: ops2) =
      runOps (sseStep (runOps st0 ops1) (SseOp.subscribe cid)) ops2 := by
    simp [runOps, List.foldl_append]
  have hold : (runOps st0 ops1).subs.find? (fun s => s.cid == cid) = none := by
    rw [List.find?_eq_none]
    intro s hs
    simpa using hfresh s hs
  have h2 : subById (sseStep (runOps st0 ops1) (SseOp.subscribe cid)) cid =
      some { cid := cid
             received := [SseEvent.snapshot (runOps st0 ops1).run
               (runOps st0 ops1).run.logs] } := by
    simp only [sseStep, subById]
    rw [find?_append_none hold]
    simp
  rw [h1]
  have h3 := runOps_received cid ops2 _ _ h2 hnot2
  simpa using h3

/-- Witness for `sse_snapshot_then_live`: three log events are
published, then client 0 subscribes, then one more log event and a
status event arrive — the client receives the snapshot (holding all
three earlier logs) first and then exactly the two later events. -/
theorem sse_snapshot_then_live_witness :
    subById (runOps
      { run := buildRunRecord "r1" demoClient "full" 0, subs := [] }
      ([SseOp.publishLog (LogEntry.mk "one" "Ingest and Index" Level.info),
        SseOp.publishLog (LogEntry.mk "two" "Ingest and Index" Level.info),
        SseOp.publishLog (LogEntry.mk "three" "Ingest and Index" Level.info)] ++
       SseOp.subscribe 0 ::
       [SseOp.publishLog (LogEntry.mk "four" "Generate" Level.info),
        SseOp.publishStatus RunStatus.complete])) 0 =
      some { cid := 0
             received := SseEvent.snapshot
                 (runOps { run := buildRunRecord "r1" demoClient "full" 0, subs := [] }
                   [SseOp.publishLog (LogEntry.mk "one" "Ingest and Index" Level.info),
                    SseOp.publishLog (LogEntry.mk "two" "Ingest and Index" Level.info),
                    SseOp.publishLog (LogEntry.mk "three" "Ingest and Index" Level.info)]).run
                 (runOps { run := buildRunRecord "r1" demoClient "full" 0, subs := [] }
                   [SseOp.publishLog (LogEntry.mk "one" "Ingest and Index" Level.info),
                    SseOp.publishLog (LogEntry.mk "two" "Ingest and Index" Level.info),
                    SseOp.publishLog (LogEntry.mk "three" "Ingest and Index" Level.info)]).run.logs ::
               [SseOp.publishLog (LogEntry.mk "four" "Generate" Level.info),
                SseOp.publishStatus RunStatus.complete].filterMap eventOf } :=
  sse_snapshot_then_live
    { run := buildRunRecord "r1" demoClient "full" 0, subs := [] }
    [SseOp.publishLog (LogEntry.mk "one" "Ingest and Index" Level.info),
     SseOp.publishLog (LogEntry.mk "two" "Ingest and Index" Level.info),
     SseOp.publishLog (LogEntry.mk "three" "Ingest and Index" Level.info)]
    [SseOp.publishLog (LogEntry.mk "four" "Generate" Level.info),
     SseOp.publishStatus RunStatus.complete] 0
    (by decide) (by decide)
